import Mathlib

/-!
Verification development for the ForestscapeMIS booking API (src/index.js and
src/unnamed/part_000).  The repository is a thin HTTP layer over a spreadsheet;
the logic embedded here is the tolerant value normalizer (parseNumber,
parseDate), the period filter (filterByPeriod), the group counter (groupCount),
the fuzzy header resolution (findKey) and the relevant route-level
computations (bookings summary, customer lookup).

Modelling conventions:
* Cell values are `String`; a possibly-absent value (JS `undefined`) is
  `Option String`.
* JS `Date` values are modelled as integer timestamps (milliseconds since the
  epoch, `Int`), with local time = UTC (the model has no time zones / DST).
* The host's generic date-string parser (`new Date(string)` on an arbitrary
  string) is implementation-defined in ECMAScript, so it is an explicit
  parameter `jsdate : String → Option Int` of every definition that uses it.
  The reconstructed `"Y-MM-DDT00:00:00"` string built by `parseDate` is
  parsed by the concrete `ecmaISOms`, which follows the ECMAScript Date Time
  String Format: a conforming string with an in-range calendar date yields the
  corresponding local-midnight timestamp, anything else is treated as an
  invalid date.
* JS numbers are modelled exactly as `JsNum` (mantissa times a power of
  ten), with `none` for `NaN` (and for `Infinity`, which no reachable input
  produces); `JsNum.toRat` gives the numeric value.
-/

set_option maxHeartbeats 1600000
set_option maxRecDepth 8000

/-! ## JS string primitives -/

/-- Characters matched by the JS whitespace class (the subset relevant to the
spreadsheet cell strings handled here). -/
def isJsWs (c : Char) : Bool :=
  c = ' ' || c = '\t' || c = '\n' || c = '\r' || c = '\x0b' || c = '\x0c' || c = '\u00A0'

/-- JS `String.prototype.trim`. -/
def jsTrimStr (s : String) : String :=
  ⟨((s.toList.dropWhile isJsWs).reverse.dropWhile isJsWs).reverse⟩

/-- JS `String.prototype.toLowerCase` (ASCII range, enough for header text). -/
def toLowerJS (s : String) : String :=
  ⟨s.toList.map Char.toLower⟩

/-- JS `String.prototype.toUpperCase` (ASCII range, enough for status text). -/
def toUpperJS (s : String) : String :=
  ⟨s.toList.map Char.toUpper⟩

/-- Does the list start with the given pattern? -/
def startsWithL : List Char → List Char → Bool
  | [], _ => true
  | _ :: _, [] => false
  | p :: ps, c :: cs => p = c && startsWithL ps cs

/-- JS `String.prototype.includes pat`: contiguous substring test. -/
def containsSub (s pat : String) : Bool :=
  s.toList.tails.any (fun t => startsWithL pat.toList t)

/-- Helper for `replace(/\s+/g, " ")`: the flag records whether we are inside
a whitespace run that has already emitted its single space. -/
def collapseWsAux : Bool → List Char → List Char
  | _, [] => []
  | inRun, c :: cs =>
    if isJsWs c then
      if inRun then collapseWsAux true cs else ' ' :: collapseWsAux true cs
    else c :: collapseWsAux false cs

/-- JS `replace(/\s+/g, " ")`: collapse every whitespace run to one space. -/
def collapseWsL (l : List Char) : List Char :=
  collapseWsAux false l

/-- Splitting on every single separator character (empty pieces kept). -/
def splitEvery (sep : Char → Bool) : List Char → List (List Char)
  | [] => [[]]
  | c :: cs =>
    if sep c then [] :: splitEvery sep cs
    else
      match splitEvery sep cs with
      | t :: ts => (c :: t) :: ts
      | [] => [[c]]

/-- Drop interior empty pieces, keeping the final one: together with keeping
the head this reproduces JS `split` on a `+`-quantified character class. -/
def collapseMid : List (List Char) → List (List Char)
  | [] => []
  | [x] => [x]
  | x :: xs => if x.isEmpty then collapseMid xs else x :: collapseMid xs

/-- JS `clean.split(/[\/\-\s:]+/)` separator class. -/
def isDateSep (c : Char) : Bool :=
  c = '/' || c = '-' || c = ':' || isJsWs c

/-- JS `split` on a run of date separators, as used by the date parser. -/
def jsSplitSep (s : String) : List String :=
  (match splitEvery isDateSep s.toList with
   | [] => []
   | x :: xs => x :: collapseMid xs).map (fun l => (⟨l⟩ : String))

/-! ## JS numeric string conversions -/

/-- Value of a list of decimal digit characters. -/
def digitsVal (l : List Char) : Nat :=
  l.foldl (fun acc c => acc * 10 + (c.toNat - '0'.toNat)) 0

/-- JS `parseInt(s, 10)`: optional sign, then the longest decimal-digit
prefix; `none` models `NaN`. -/
def parseIntJS (s : String) : Option Int :=
  let l := s.toList.dropWhile isJsWs
  match l with
  | '-' :: rest =>
    let ds := rest.takeWhile Char.isDigit
    if ds.isEmpty then none else some (-(digitsVal ds : Int))
  | '+' :: rest =>
    let ds := rest.takeWhile Char.isDigit
    if ds.isEmpty then none else some (digitsVal ds : Int)
  | _ =>
    let ds := l.takeWhile Char.isDigit
    if ds.isEmpty then none else some (digitsVal ds : Int)

/-- Exponent suffix of a JS decimal literal; `some e` only when the whole
remainder is a well-formed (possibly signed) exponent, `some 0` on the empty
remainder. -/
def parseExp : List Char → Option Int
  | [] => some 0
  | c :: rest =>
    if c = 'e' || c = 'E' then
      match rest with
      | '+' :: ds =>
        if !ds.isEmpty && ds.all Char.isDigit then some (digitsVal ds : Int) else none
      | '-' :: ds =>
        if !ds.isEmpty && ds.all Char.isDigit then some (-(digitsVal ds : Int)) else none
      | ds =>
        if !ds.isEmpty && ds.all Char.isDigit then some (digitsVal ds : Int) else none
    else none

/-- A finite JS number value, kept exactly as mantissa times a power of ten
(`m * 10 ^ e`).  This avoids `ℚ` normalization, which does not reduce inside
the kernel; `JsNum.toRat` gives the numeric value. -/
structure JsNum where
  m : Int
  e : Int
  deriving DecidableEq, Repr

/-- Numeric value of a `JsNum`. -/
def JsNum.toRat (x : JsNum) : ℚ :=
  (x.m : ℚ) * (10 : ℚ) ^ x.e

/-- Comparison `b < x` of a `JsNum` against an integer bound. -/
def JsNum.gtInt (x : JsNum) (b : Int) : Bool :=
  if 0 ≤ x.e then b < x.m * (10 : Int) ^ x.e.toNat
  else b * (10 : Int) ^ (-x.e).toNat < x.m

/-- Comparison `x < b` of a `JsNum` against an integer bound. -/
def JsNum.ltInt (x : JsNum) (b : Int) : Bool :=
  if 0 ≤ x.e then x.m * (10 : Int) ^ x.e.toNat < b
  else x.m < b * (10 : Int) ^ (-x.e).toNat

/-- Unsigned JS decimal literal `digits [. digits] [exponent]` /
`. digits [exponent]`, consuming the whole list. -/
def parseUnsignedDec (l : List Char) : Option JsNum :=
  let ip := l.takeWhile Char.isDigit
  let rest1 := l.dropWhile Char.isDigit
  match rest1 with
  | '.' :: rest2 =>
    let fp := rest2.takeWhile Char.isDigit
    let rest3 := rest2.dropWhile Char.isDigit
    if ip.isEmpty && fp.isEmpty then none
    else
      (parseExp rest3).map
        (fun e =>
          ⟨(digitsVal ip * 10 ^ fp.length + digitsVal fp : Nat), e - fp.length⟩)
  | rest =>
    if ip.isEmpty then none
    else (parseExp rest).map (fun e => ⟨(digitsVal ip : Int), e⟩)

/-- Digit value in a non-decimal radix. -/
def radixDigit (base : Nat) (c : Char) : Option Nat :=
  let u := c.toNat
  let v : Option Nat :=
    if 48 ≤ u ∧ u ≤ 57 then some (u - 48)
    else if 97 ≤ u ∧ u ≤ 102 then some (u - 87)
    else if 65 ≤ u ∧ u ≤ 70 then some (u - 55)
    else none
  match v with
  | some n => if n < base then some n else none
  | none => none

/-- Unsigned JS non-decimal integer literal body (after `0x`/`0o`/`0b`). -/
def parseRadix (base : Nat) (ds : List Char) : Option JsNum :=
  if ds.isEmpty then none
  else
    ds.foldl
      (fun acc c =>
        match acc, radixDigit base c with
        | some a, some n => some (a * base + n)
        | _, _ => none)
      (some (0 : Nat)) |>.map (fun n => ⟨(n : Int), 0⟩)

/-- Unsigned JS numeric literal (decimal or `0x`/`0o`/`0b`). -/
def parseUnsignedNum (l : List Char) : Option JsNum :=
  match l with
  | '0' :: c :: rest =>
    if c = 'x' || c = 'X' then parseRadix 16 rest
    else if c = 'o' || c = 'O' then parseRadix 8 rest
    else if c = 'b' || c = 'B' then parseRadix 2 rest
    else parseUnsignedDec l
  | _ => parseUnsignedDec l

/-- JS `Number(s)` for strings: trim, empty means `0`, optional sign on a
decimal literal, unsigned non-decimal literals; `none` models `NaN` (the
literal `"Infinity"`, which no call site can receive with effect, is also
mapped to `none`). -/
def jsNumber (s : String) : Option JsNum :=
  let l := ((s.toList.dropWhile isJsWs).reverse.dropWhile isJsWs).reverse
  match l with
  | [] => some ⟨0, 0⟩
  | '-' :: rest => (parseUnsignedDec rest).map (fun x => ⟨-x.m, x.e⟩)
  | '+' :: rest => parseUnsignedDec rest
  | _ => parseUnsignedNum l

/-! ## Calendar model (ECMAScript day-number arithmetic, local time = UTC)

The proleptic Gregorian conversions below model the date arithmetic that the
ECMAScript specification defines mathematically (MakeDay / YearFromTime /
MonthFromTime / DateFromTime).  `civilFromDays` yields (year, month 1..12,
day 1..31) of a day number (days since 1970-01-01); `daysFromCivil` is the
inverse, linear in the day argument so that it also realises the day-overflow
normalization of `MakeDay` and `setDate`. -/

/-- Century within the era (0..3) of a day-of-era (0..146096); the last day
of the era is clamped into the last century. -/
def cOfDoe (doe : Nat) : Nat := min (doe / 36524) 3

/-- Remaining days after the century (0..36524). -/
def r2OfDoe (doe : Nat) : Nat := doe - 36524 * cOfDoe doe

/-- Four-year block within the century (0..24). -/
def qOfDoe (doe : Nat) : Nat := r2OfDoe doe / 1461

/-- Remaining days after the four-year block (0..1460). -/
def r3OfDoe (doe : Nat) : Nat := r2OfDoe doe - 1461 * qOfDoe doe

/-- Year within the four-year block (0..3); day 1460 (the leap day) is
clamped into year 3. -/
def yInQOfDoe (doe : Nat) : Nat := min (r3OfDoe doe / 365) 3

/-- Day-of-year (March-based, 0..365) of a day-of-era. -/
def doyOfDoe (doe : Nat) : Nat := r3OfDoe doe - 365 * yInQOfDoe doe

/-- Year-of-era (0..399) of a day-of-era. -/
def yoeOfDoe (doe : Nat) : Nat :=
  100 * cOfDoe doe + 4 * qOfDoe doe + yInQOfDoe doe

/-- March-based month index (0..11) of a day-of-era. -/
def mpOfDoe (doe : Nat) : Nat :=
  (5 * doyOfDoe doe + 2) / 153

/-- Day of month (1..31) of a day-of-era. -/
def domOfDoe (doe : Nat) : Nat :=
  doyOfDoe doe - (153 * mpOfDoe doe + 2) / 5 + 1

/-- Calendar month (1..12) of a day-of-era. -/
def monthOfDoe (doe : Nat) : Nat :=
  if mpOfDoe doe < 10 then mpOfDoe doe + 3 else mpOfDoe doe - 9

/-- Civil (year, month 1..12, day 1..31) from a day number (days since
1970-01-01; Euclidean `/` and `%` on `Int` realise the floor division of the
ECMAScript arithmetic, as the divisors are positive). -/
def civilFromDays (z : Int) : Int × Nat × Nat :=
  let doe : Nat := ((z + 719468) % 146097).toNat
  ((z + 719468) / 146097 * 400 + yoeOfDoe doe +
     (if monthOfDoe doe ≤ 2 then 1 else 0),
   monthOfDoe doe, domOfDoe doe)

/-- Day number of a civil date; linear in `d`, so out-of-range day values
roll over exactly as in ECMAScript `MakeDay`. -/
def daysFromCivil (y : Int) (m : Nat) (d : Int) : Int :=
  let yAdj : Int := if m ≤ 2 then y - 1 else y
  let era : Int := yAdj / 400
  let yoe : Nat := (yAdj % 400).toNat
  let mp : Nat := if 2 < m then m - 3 else m + 9
  let doe : Nat := 365 * yoe + yoe / 4 - yoe / 100 + (153 * mp + 2) / 5
  era * 146097 + (doe : Int) + (d - 1) - 719468

/-! ## Timestamps and the JS Date API surface used by the sources -/

/-- Day number (floor) of a millisecond timestamp. -/
def tsDays (t : Int) : Int := t / 86400000

/-- Millisecond-of-day of a timestamp. -/
def tsMsOfDay (t : Int) : Int := t % 86400000

/-- JS `getFullYear()`. -/
def jsGetFullYear (t : Int) : Int := (civilFromDays (tsDays t)).1

/-- JS `getMonth()` (0-based month index). -/
def jsGetMonth (t : Int) : Int := ((civilFromDays (tsDays t)).2.1 : Int) - 1

/-- JS `getDate()` (day of month, 1-based). -/
def jsGetDate (t : Int) : Int := ((civilFromDays (tsDays t)).2.2 : Int)

/-- JS `new Date(y, monthIndex, day)` at local midnight: the two-digit-year
quirk maps years 0..99 to 1900..1999, the month index is normalized with
rollover into the year, and the day is a plain offset (ECMAScript
`MakeDay`). -/
def jsMakeDate (y monthIndex day : Int) : Int :=
  let yFull : Int := if 0 ≤ y ∧ y ≤ 99 then y + 1900 else y
  let ym : Int := yFull + monthIndex / 12
  let mn : Nat := (monthIndex % 12).toNat
  (daysFromCivil ym (mn + 1) 1 + (day - 1)) * 86400000

/-- JS `d.setDate(n)`: keep the time of day, reset the day of month to `n`
with rollover. -/
def jsSetDate (t n : Int) : Int :=
  (daysFromCivil (civilFromDays (tsDays t)).1 (civilFromDays (tsDays t)).2.1 1 + (n - 1))
      * 86400000 + tsMsOfDay t

/-! ## The reconstructed ISO string parse and leap-year arithmetic -/

/-- Gregorian leap-year test. -/
def isLeapYear (y : Int) : Bool :=
  (y % 4 == 0 && y % 100 != 0) || y % 400 == 0

/-- Number of days of month `m` (1..12) in year `y`. -/
def daysInMonth (y : Int) (m : Nat) : Nat :=
  if m = 4 ∨ m = 6 ∨ m = 9 ∨ m = 11 then 30
  else if m = 2 then (if isLeapYear y then 29 else 28)
  else 31

/-- Parse of the reconstructed `"Y-MM-DDT00:00:00"` string per the
ECMAScript Date Time String Format: the string conforms to the format only
when the year prints as exactly four digits and month and day are in-range
two-digit fields denoting an existing calendar day, in which case the value
is that local midnight; every non-conforming reconstruction is treated as an
invalid date. -/
def ecmaISOms (y mo d : Int) : Option Int :=
  if 1000 ≤ y ∧ y ≤ 9999 ∧ 1 ≤ mo ∧ mo ≤ 12 ∧ 1 ≤ d ∧ d ≤ (daysInMonth y mo.toNat : Int)
  then some (daysFromCivil y mo.toNat d * 86400000)
  else none

/-! ## The value normalizer (parseNumber / parseDate) -/

/-- A JS value that is either `undefined`/`null` (`none`) or a string. -/
def jsFalsyB (v : Option String) : Bool :=
  match v with
  | none => true
  | some s => s == ""

/-- Test `Number(x) > b` with `NaN` comparing false. -/
def numGt (s : String) (b : Int) : Bool :=
  match jsNumber s with
  | some q => q.gtInt b
  | none => false

/-- Test `Number(x) < b` with `NaN` comparing false. -/
def numLt (s : String) (b : Int) : Bool :=
  match jsNumber s with
  | some q => q.ltInt b
  | none => false

/-- Test `parseInt(x, 10) > 12` with `NaN` comparing false. -/
def piGt12 (a : String) : Bool :=
  match parseIntJS a with
  | some n => decide (12 < n)
  | none => false

/-- The guard `a.length === 4 && Number(a) > 1900` of the date parser. -/
def condFirstYear (a : String) : Bool :=
  (a.length == 4) && numGt a 1900

/-- The guard `c.length === 4 && Number(c) > 1900 && Number(c) < 3000`. -/
def condThirdYear (c : String) : Bool :=
  (c.length == 4) && numGt c 1900 && numLt c 3000

/-- Assignment of (year, month, day) from the first three components by the
positional heuristics, in the branch order of src/unnamed/part_000: the
first-component year test, then the third-component year test, then the bare
`parseInt(a) > 12` day/month heuristic (the second and third branches of the
source assign identically; src/index.js tests the third-component condition
first, with the same branch bodies). -/
def chooseYMD (a b c : String) : Option Int × Option Int × Option Int :=
  if condFirstYear a then (parseIntJS a, parseIntJS b, parseIntJS c)
  else if condThirdYear c then
    (if piGt12 a then (parseIntJS c, parseIntJS b, parseIntJS a)
     else (parseIntJS c, parseIntJS a, parseIntJS b))
  else
    (if piGt12 a then (parseIntJS c, parseIntJS b, parseIntJS a)
     else (parseIntJS c, parseIntJS a, parseIntJS b))

/-- Tail of `parseDate`: the `!day || !month || !year` guard followed by the
reconstruction `"Y-MM-DDT00:00:00"` parsed by `ecmaISOms` (arguments in
year, month, day order; a `NaN` or zero component yields null). -/
def finishYMD : Option Int → Option Int → Option Int → Option Int
  | some y, some mo, some d =>
    if y = 0 ∨ mo = 0 ∨ d = 0 then none else ecmaISOms y mo d
  | _, _, _ => none

/-- Model of `parseDate` of src/unnamed/part_000 (src/index.js differs only in the
branch order inside `chooseYMD`, see there).  `jsdate` is the host's
implementation-defined generic date parser tried first on the trimmed
string; the manual fallback splits on separator runs and applies the
positional heuristics. -/
def parseDate (jsdate : String → Option Int) (v : Option String) : Option Int :=
  match v with
  | none => none
  | some value =>
    if value = "" then none
    else
      let clean := jsTrimStr value
      if clean = "" then none
      else
        match jsdate clean with
        | some t => some t
        | none =>
          match jsSplitSep clean with
          | a :: b :: c :: _ =>
            match chooseYMD (jsTrimStr a) (jsTrimStr b) (jsTrimStr c) with
            | (y, mo, d) => finishYMD y mo d
          | _ => none

/-- The characters kept by `parseNumber`'s cleaning regex `[^0-9.\-]`. -/
def cleanNumeric (s : String) : String :=
  ⟨s.toList.filter (fun ch => ch.isDigit || ch = '.' || ch = '-')⟩

/-- Model of `parseNumber` of both sources: falsy input is 0, otherwise the cleaned
string is converted with `Number`, `NaN` becoming 0. -/
def parseNumber (v : Option String) : JsNum :=
  match v with
  | none => ⟨0, 0⟩
  | some s => if s = "" then ⟨0, 0⟩ else (jsNumber (cleanNumeric s)).getD ⟨0, 0⟩

/-- A host on which the direct generic parse always fails (used to exercise
the manual fallback on concrete inputs). -/
def jsNone : String → Option Int := fun _ => none

/-! ## Records and the routed computations -/

/-- A spreadsheet record: header → trimmed cell value, in column order. -/
abbrev Row := List (String × String)

/-- Access `r[k]` (an absent key is JS `undefined`). -/
def getField (r : Row) (k : String) : Option String :=
  r.lookup k

/-- Access `(r[k] || "")`. -/
def getStr (r : Row) (k : String) : String :=
  (r.lookup k).getD ""

/-- Column-name constants used by the embedded computations. -/
def COLS_BOOKING_DATE : String := "Booking Date"

/-- The cluster column name. -/
def COLS_CLUSTER : String := "Cluster"

/-- The sold/unsold status column name (src/index.js; src/unnamed/part_000
uses the truncated header text, which changes nothing structural). -/
def COLS_SOLD_STATUS : String := "SOLD/UNSOLD"

/-- The mobile number column name. -/
def COLS_MOBILE : String := "Mobile Number"

/-- The unit number column name. -/
def COLS_UNIT_NO : String := "Unit No."

/-- Model of `filterByPeriod` of both sources: compute the period boundaries from the
call-time instant `now`, then keep the records whose parsed date satisfies
the period's window; records whose date does not parse are dropped. -/
def filterByPeriod (jsdate : String → Option Int) (now : Int) (data : List Row)
    (period : String) (dateColumn : String := COLS_BOOKING_DATE) : List Row :=
  let startOfToday := jsMakeDate (jsGetFullYear now) (jsGetMonth now) (jsGetDate now)
  let endOfToday := jsMakeDate (jsGetFullYear now) (jsGetMonth now) (jsGetDate now + 1)
  let oneWeekAgo := jsSetDate now (jsGetDate now - 7)
  let startOfMonth := jsMakeDate (jsGetFullYear now) (jsGetMonth now) 1
  let endOfMonth := jsMakeDate (jsGetFullYear now) (jsGetMonth now + 1) 1
  data.filter (fun row =>
    match parseDate jsdate (getField row dateColumn) with
    | none => false
    | some d =>
      if period = "today" then decide (startOfToday ≤ d) && decide (d < endOfToday)
      else if period = "this_week" then decide (oneWeekAgo ≤ d) && decide (d ≤ now)
      else if period = "this_month" then decide (startOfMonth ≤ d) && decide (d < endOfMonth)
      else true)

/-- The label under which `groupCount` tallies a record:
`(row[key] || "Unknown").trim() || "Unknown"`. -/
def normVal (r : Row) (k : String) : String :=
  let v :=
    match r.lookup k with
    | none => "Unknown"
    | some s => if s = "" then "Unknown" else s
  let t := jsTrimStr v
  if t = "" then "Unknown" else t

/-- Lookup of a counter by key (first occurrence; the JS object has unique
keys). -/
def lookupCnt (k : String) : List (String × Nat) → Option Nat
  | [] => none
  | (a, v) :: t => if k = a then some v else lookupCnt k t

/-- Update `counts[val] = (counts[val] || 0) + 1` on an insertion-ordered record of
counters. -/
def bumpCount (acc : List (String × Nat)) (k : String) : List (String × Nat) :=
  if (lookupCnt k acc).isSome then
    acc.map (fun p => if p.1 = k then (p.1, p.2 + 1) else p)
  else acc ++ [(k, 1)]

/-- The `counts` object built by `groupCount`. -/
def buildCounts (data : List Row) (key : String) : List (String × Nat) :=
  data.foldl (fun acc row => bumpCount acc (normVal row key)) []

/-- An object key that is a canonical array index (JS enumerates those first,
in ascending numeric order). -/
def isArrayIndexKey (s : String) : Option Nat :=
  match s.toList with
  | [] => none
  | l =>
    if l.all Char.isDigit && (decide (l.headI ≠ '0') || decide (l = ['0'])) then
      if digitsVal l < 4294967295 then some (digitsVal l) else none
    else none

/-- Numeric enumeration rank of an array-index key. -/
def idxVal (p : String × Nat) : Nat :=
  (isArrayIndexKey p.1).getD 0

/-- Insertion into a list sorted ascending by array-index rank. -/
def insertAsc (x : String × Nat) : List (String × Nat) → List (String × Nat)
  | [] => [x]
  | y :: ys => if idxVal x < idxVal y then x :: y :: ys else y :: insertAsc x ys

/-- Sort ascending by array-index rank. -/
def sortAscIdx (l : List (String × Nat)) : List (String × Nat) :=
  l.foldr insertAsc []

/-- JS `Object.entries` enumeration order: canonical array-index keys first in
ascending numeric order, then the remaining keys in insertion order. -/
def jsObjectEntries (l : List (String × Nat)) : List (String × Nat) :=
  sortAscIdx (l.filter (fun p => (isArrayIndexKey p.1).isSome))
    ++ l.filter (fun p => !(isArrayIndexKey p.1).isSome)

/-- Stable insertion (descending by count): a new element goes before the
first element whose count is not larger, so earlier elements win ties, as in
the required-stable JS `Array.prototype.sort`. -/
def insertDesc (x : String × Nat) : List (String × Nat) → List (String × Nat)
  | [] => [x]
  | y :: ys => if y.2 ≤ x.2 then x :: y :: ys else y :: insertDesc x ys

/-- Stable sort, descending by count (the comparator `(a, b) => b[1] - a[1]`
of the sources). -/
def sortDescCount (l : List (String × Nat)) : List (String × Nat) :=
  l.foldr insertDesc []

/-- Model of `groupCount` of both sources. -/
def groupCount (data : List Row) (key : String) : List (String × Nat) :=
  sortDescCount (jsObjectEntries (buildCounts data key))

/-- The header normalization `norm` of the revenue route of
src/unnamed/part_000: lowercase, collapse whitespace runs, trim. -/
def normHdr (s : String) : String :=
  jsTrimStr ⟨collapseWsL (toLowerJS s).toList⟩

/-- Model of `findKey` of src/unnamed/part_000: first header whose normalization
equals the normalized label, else first whose normalization contains it. -/
def findKey (keys : List String) (label : String) : Option String :=
  match keys.find? (fun k => normHdr k == normHdr label) with
  | some k => some k
  | none => keys.find? (fun k => containsSub (normHdr k) (normHdr label))

/-- The call-site composite `findKey(label) || findKey(COLS.X) || COLS.X`
(at every call site the two label strings are the same constant, so the
second call repeats the first); JS `||` also skips an empty-string result. -/
def resolveKey (keys : List String) (label : String) (dflt : String) : String :=
  match findKey keys label with
  | some k => if k = "" then dflt else k
  | none => dflt

/-- Does the uppercased status of the record contain `"SOLD"`. -/
def soldPred (col : String) (r : Row) : Bool :=
  containsSub (toUpperJS (getStr r col)) "SOLD"

/-- Does the uppercased status of the record contain `"UNSOLD"`. -/
def unsoldPred (col : String) (r : Row) : Bool :=
  containsSub (toUpperJS (getStr r col)) "UNSOLD"

/-- The aggregate returned by `GET /bookings/summary`. -/
structure BookingsSummary where
  period : String
  total_bookings : Nat
  sold : Nat
  unsold : Nat
  by_cluster : List (String × Nat)
  deriving Repr, DecidableEq

/-- The `GET /bookings/summary` aggregation over the loaded record set. -/
def bookingsSummary (jsdate : String → Option Int) (now : Int) (data : List Row)
    (period : String) : BookingsSummary :=
  let filtered := filterByPeriod jsdate now data period COLS_BOOKING_DATE
  { period := period
    total_bookings := filtered.length
    sold := (filtered.filter (soldPred COLS_SOLD_STATUS)).length
    unsold := (filtered.filter (unsoldPred COLS_SOLD_STATUS)).length
    by_cluster := groupCount filtered COLS_CLUSTER }

/-- JS `replace(/\D/g, "")`. -/
def digitsOnly (s : String) : String :=
  ⟨s.toList.filter Char.isDigit⟩

/-- The observable behaviour of a route handler: either an early response
sent before any spreadsheet load, or a load followed by serving from the
loaded rows. -/
inductive RouteOutcome where
  | earlyReject (status : Nat) (error : String)
  | loadAndServe (serve : List Row → Nat × List Row)

/-- The `GET /customer` handler: the missing-parameter check precedes the
data load; after the load, the mobile filter is a digit-only substring
match and the unit filter a case-insensitive exact match. -/
def customerRoute (mobile unit : Option String) : RouteOutcome :=
  if jsFalsyB mobile && jsFalsyB unit then
    .earlyReject 400 "Provide mobile or unit query"
  else
    .loadAndServe (fun data =>
      let f1 :=
        match mobile with
        | some m =>
          if m = "" then data
          else data.filter (fun r => containsSub (digitsOnly (getStr r COLS_MOBILE)) (digitsOnly m))
        | none => data
      let f2 :=
        match unit with
        | some u =>
          if u = "" then f1
          else f1.filter (fun r => toLowerJS (getStr r COLS_UNIT_NO) == toLowerJS u)
        | none => f1
      (f2.length, f2))

/-! ## Definitions used by the claim statements (spec-side windows, the
claimed date heuristic, and counter-key distinctness) -/

/-- Start of the calendar day of `now` (the claim's start-of-today). -/
def specStartOfToday (now : Int) : Int :=
  jsMakeDate (jsGetFullYear now) (jsGetMonth now) (jsGetDate now)

/-- First instant of the calendar month of `now`. -/
def specStartOfMonth (now : Int) : Int :=
  jsMakeDate (jsGetFullYear now) (jsGetMonth now) 1

/-- First instant of the month after that of `now`. -/
def specStartOfNextMonth (now : Int) : Int :=
  jsMakeDate (jsGetFullYear now) (jsGetMonth now + 1) 1

/-- The named windows of the claim: today is the half-open calendar day
(start-of-today to start-of-next-day, the latter being exactly one day
later), this_week is the closed interval from `now` minus seven days
(7 · 86400000 ms) to `now`, this_month is the half-open calendar month, and
any other period keeps everything. -/
def specWindowB (now : Int) (period : String) (d : Int) : Bool :=
  if period = "today" then
    decide (specStartOfToday now ≤ d) && decide (d < specStartOfToday now + 86400000)
  else if period = "this_week" then
    decide (now - 7 * 86400000 ≤ d) && decide (d ≤ now)
  else if period = "this_month" then
    decide (specStartOfMonth now ≤ d) && decide (d < specStartOfNextMonth now)
  else true

/-- C2 as stated, as a property of a date parser: for inputs on which the
direct parse fails and that split into at least three components, (i) a
first component of length 4 whose numeric value exceeds 1900 forces a
year-month-day reading of the first three components; (ii) otherwise, a LAST
component of length 4 whose numeric value lies strictly between 1900 and
3000 forces a day/month reading of the first two components — day first
exactly when `parseInt` of the first exceeds 12 — with the last component as
the year. -/
def dateHeuristicClaim
    (parse : (String → Option Int) → Option String → Option Int) : Prop :=
  ∀ (jsdate : String → Option Int) (s a b c : String) (rest : List String),
    jsdate (jsTrimStr s) = none →
    jsSplitSep (jsTrimStr s) = a :: b :: c :: rest →
    (condFirstYear a = true →
      parse jsdate (some s) = finishYMD (parseIntJS a) (parseIntJS b) (parseIntJS c)) ∧
    (condFirstYear a = false →
      condThirdYear ((a :: b :: c :: rest).getLastD "") = true →
      parse jsdate (some s) =
        (if piGt12 a = true then
          finishYMD (parseIntJS ((a :: b :: c :: rest).getLastD ""))
            (parseIntJS b) (parseIntJS a)
        else
          finishYMD (parseIntJS ((a :: b :: c :: rest).getLastD ""))
            (parseIntJS a) (parseIntJS b)))

/-- Distinctness of the keys of a counter list (JS object keys are unique). -/
def keysND (l : List (String × Nat)) : Prop :=
  (l.map Prod.fst).Nodup

/-! ## Sanity evaluations of the embedded functions -/

example : jsNumber "" = some ⟨0, 0⟩ := by decide

example : jsNumber "  " = some ⟨0, 0⟩ := by decide

example : jsNumber "123456.78" = some ⟨12345678, -2⟩ := by decide

example : jsNumber "-" = none := by decide

example : jsNumber "5-" = none := by decide

example : jsNumber "1.2.3" = none := by decide

example : jsNumber "-1.5" = some ⟨-15, -1⟩ := by decide

example : jsNumber "1e99" = some ⟨1, 99⟩ := by decide

example : jsNumber "2024" = some ⟨2024, 0⟩ := by decide

example : (jsNumber "2024").map (fun x => x.gtInt 1900) = some true := by decide

example : (jsNumber "1e99").map (fun x => x.gtInt 1900) = some true := by decide

example : jsSplitSep "5-6-7 2024" = ["5", "6", "7", "2024"] := by decide

example : jsSplitSep "/a//b/" = ["", "a", "b", ""] := by decide

example : jsSplitSep "" = [""] := by decide

example : parseIntJS "1e99" = some 1 := by decide

example : parseIntJS "abc" = none := by decide

example : parseIntJS "08" = some 8 := by decide

example : containsSub "UNSOLD" "SOLD" = true := by decide

example : containsSub "ABC" "SOLD" = false := by decide

example : daysFromCivil 1970 1 1 = 0 := by decide

example : daysFromCivil 2024 1 1 = 19723 := by decide

example : daysFromCivil 2024 2 29 = 19782 := by decide

example : daysFromCivil 2024 3 1 = 19783 := by decide

example : civilFromDays 0 = (1970, 1, 1) := by decide

example : civilFromDays 19723 = (2024, 1, 1) := by decide

example : civilFromDays 19782 = (2024, 2, 29) := by decide

example : civilFromDays (-1) = (1969, 12, 31) := by decide

/-- The century / four-year-block / year decomposition of a day-of-era. -/
theorem chain_facts (doe : Nat) (h : doe < 146097) :
    cOfDoe doe ≤ 3 ∧ 36524 * cOfDoe doe ≤ doe ∧
    qOfDoe doe ≤ 24 ∧ yInQOfDoe doe ≤ 3 ∧ doyOfDoe doe ≤ 365 ∧
    36524 * cOfDoe doe + 1461 * qOfDoe doe + 365 * yInQOfDoe doe + doyOfDoe doe = doe := by
  unfold doyOfDoe yInQOfDoe r3OfDoe qOfDoe r2OfDoe cOfDoe
  omega

/-- The divisions of the year-of-era by 4 and by 100 are exact in terms of
the decomposition, because the year-of-era is `100 c + 4 q + y`. -/
theorem yoe_divs (doe : Nat) (h : doe < 146097) :
    yoeOfDoe doe / 4 = 25 * cOfDoe doe + qOfDoe doe ∧
    yoeOfDoe doe / 100 = cOfDoe doe ∧ yoeOfDoe doe ≤ 399 := by
  have hc := chain_facts doe h
  unfold yoeOfDoe
  omega

/-- The civil-year day count up to the year-of-era, plus the day-of-year,
reconstructs the day-of-era. -/
theorem base_doy (doe : Nat) (h : doe < 146097) :
    365 * yoeOfDoe doe + yoeOfDoe doe / 4 - yoeOfDoe doe / 100 + doyOfDoe doe = doe := by
  have hc := chain_facts doe h
  have hd := yoe_divs doe h
  rw [hd.1, hd.2.1]
  unfold yoeOfDoe
  omega

/-- Month-slot and day-of-month facts of the day-of-era decomposition. -/
theorem mp_dom_facts (doe : Nat) (h : doe < 146097) :
    mpOfDoe doe ≤ 11 ∧ (153 * mpOfDoe doe + 2) / 5 ≤ doyOfDoe doe ∧
    1 ≤ domOfDoe doe ∧ domOfDoe doe ≤ 31 ∧
    (153 * mpOfDoe doe + 2) / 5 + (domOfDoe doe - 1) = doyOfDoe doe := by
  have hdoy : doyOfDoe doe ≤ 365 := (chain_facts doe h).2.2.2.2.1
  unfold domOfDoe mpOfDoe
  omega

/-- The month produced by `civilFromDays` is between 1 and 12. -/
theorem monthOfDoe_range (doe : Nat) (h : doe < 146097) :
    1 ≤ monthOfDoe doe ∧ monthOfDoe doe ≤ 12 := by
  have hm := mp_dom_facts doe h
  unfold monthOfDoe
  split <;> omega

/-- Recovering era and year-of-era from `era * 400 + yoe`. -/
theorem era_recomp (era : Int) (yoe : Nat) (h : yoe ≤ 399) :
    (era * 400 + (yoe : Int)) / 400 = era ∧
    ((era * 400 + (yoe : Int)) % 400).toNat = yoe := by
  omega

/-- The function `daysFromCivil` inverts `civilFromDays`: reading a day number back from
its civil fields returns the same day number. -/
theorem daysFromCivil_civilFromDays (z : Int) :
    daysFromCivil (civilFromDays z).1 (civilFromDays z).2.1 (civilFromDays z).2.2 = z := by
  have hdoe : ((z + 719468) % 146097).toNat < 146097 := by omega
  have hb := base_doy ((z + 719468) % 146097).toNat hdoe
  have hm := mp_dom_facts ((z + 719468) % 146097).toNat hdoe
  have hy := yoe_divs ((z + 719468) % 146097).toNat hdoe
  have hrec := era_recomp ((z + 719468) / 146097)
    (yoeOfDoe ((z + 719468) % 146097).toNat) hy.2.2
  simp only [civilFromDays, daysFromCivil]
  by_cases hmp : mpOfDoe ((z + 719468) % 146097).toNat < 10
  · -- month = mp + 3, which is at least 3
    simp only [monthOfDoe, if_pos hmp]
    have h1 : ¬ (mpOfDoe ((z + 719468) % 146097).toNat + 3 ≤ 2) := by omega
    have h2 : 2 < mpOfDoe ((z + 719468) % 146097).toNat + 3 := by omega
    simp only [if_neg h1, if_pos h2, Nat.add_sub_cancel, add_zero]
    rw [hrec.1, hrec.2]
    omega
  · -- month = mp - 9, which is 1 or 2
    simp only [monthOfDoe, if_neg hmp]
    have hmp11 : mpOfDoe ((z + 719468) % 146097).toNat ≤ 11 := hm.1
    have h1 : mpOfDoe ((z + 719468) % 146097).toNat - 9 ≤ 2 := by omega
    have h2 : ¬ (2 < mpOfDoe ((z + 719468) % 146097).toNat - 9) := by omega
    have h3 : mpOfDoe ((z + 719468) % 146097).toNat - 9 + 9
        = mpOfDoe ((z + 719468) % 146097).toNat := by omega
    have h4 : (z + 719468) / 146097 * 400 +
        (yoeOfDoe ((z + 719468) % 146097).toNat : Int) + 1 - 1 =
        (z + 719468) / 146097 * 400 + (yoeOfDoe ((z + 719468) % 146097).toNat : Int) := by
      omega
    simp only [if_pos h1, if_neg h2, h3, h4]
    rw [hrec.1, hrec.2]
    omega

/-- The function `daysFromCivil` is linear in its day argument. -/
theorem daysFromCivil_day_offset (y : Int) (m : Nat) (d : Int) :
    daysFromCivil y m d = daysFromCivil y m 1 + (d - 1) := by
  by_cases hm : m ≤ 2 <;> simp only [daysFromCivil, if_pos, if_neg, hm, ite_true, ite_false] <;>
    ring

/-- Setting the day of month to `getDate() - k` subtracts exactly `k` civil
days, i.e. `k * 86400000` milliseconds in this timezone-free model. -/
theorem jsSetDate_getDate_sub (t k : Int) :
    jsSetDate t (jsGetDate t - k) = t - k * 86400000 := by
  have hrt := daysFromCivil_civilFromDays (tsDays t)
  have hoff := daysFromCivil_day_offset (civilFromDays (tsDays t)).1
    (civilFromDays (tsDays t)).2.1 ((civilFromDays (tsDays t)).2.2 : Int)
  unfold jsSetDate jsGetDate tsMsOfDay tsDays at *
  omega

/-- JS `new Date(y, m, d + 1)` is one day after `new Date(y, m, d)`. -/
theorem jsMakeDate_succ_day (y monthIndex d : Int) :
    jsMakeDate y monthIndex (d + 1) = jsMakeDate y monthIndex d + 86400000 := by
  unfold jsMakeDate
  ring

example : parseDate jsNone (some "2024-03-05") = some (19787 * 86400000) := by decide

example : parseDate jsNone (some "05/03/2024") = some ((19723 + 31 + 29 + 61 + 2) * 86400000) := by
  decide

example : parseDate jsNone (some "not a date") = none := by decide

example : parseDate jsNone (some "") = none := by decide

example : parseDate jsNone (some "15/08/2024") = none ∨
    parseDate jsNone (some "15/08/2024") ≠ none := by decide

example : parseNumber (some "1,23,456.78") = ⟨12345678, -2⟩ := by decide

example : parseNumber (some "₹ 50,000") = ⟨50000, 0⟩ := by decide

example : parseNumber (some "abc") = ⟨0, 0⟩ := by decide

example : parseNumber none = ⟨0, 0⟩ := by decide

example :
    groupCount [[("K", "A")], [("K", "A")], [("K", "B")], [("K", "")]] "K"
      = [("A", 2), ("B", 1), ("Unknown", 1)] := by decide

/-! ## Supporting lemmas for the claims -/

/-- A character list starting with `"UNSOLD"` contains `"SOLD"` two
characters in. -/
theorem startsWith_unsold_drop (t : List Char) :
    startsWithL "UNSOLD".toList t = true → startsWithL "SOLD".toList (t.drop 2) = true := by
  match t with
  | [] => intro h; simp [startsWithL, String.toList] at h
  | [c1] => intro h; simp [startsWithL, String.toList] at h
  | c1 :: c2 :: t2 =>
    intro h
    simp only [String.toList, startsWithL, Bool.and_eq_true, decide_eq_true_eq] at h
    simpa [String.toList, startsWithL] using h.2.2

/-- A string whose uppercase form contains `"UNSOLD"` also contains
`"SOLD"`. -/
theorem containsSub_SOLD_of_UNSOLD (s : String) :
    containsSub s "UNSOLD" = true → containsSub s "SOLD" = true := by
  intro h
  unfold containsSub at h ⊢
  rw [List.any_eq_true] at h ⊢
  obtain ⟨t, ht, hstart⟩ := h
  refine ⟨t.drop 2, ?_, startsWith_unsold_drop t hstart⟩
  exact (List.mem_tails _ _).mpr ((List.drop_suffix 2 t).trans ((List.mem_tails _ _).mp ht))

/-- Counting with a stronger predicate keeps the filtered list at most as
long. -/
theorem filter_length_mono {α : Type} (l : List α) (p q : α → Bool)
    (h : ∀ a, p a = true → q a = true) :
    (l.filter p).length ≤ (l.filter q).length := by
  induction l with
  | nil => simp
  | cons a l ih =>
    simp only [List.filter_cons]
    cases hp : p a
    · rw [if_neg (by simp : ¬ (false = true))]
      cases hq : q a
      · rw [if_neg (by simp : ¬ (false = true))]
        exact ih
      · rw [if_pos rfl]
        exact Nat.le_succ_of_le ih
    · rw [h a hp, if_pos rfl, if_pos rfl]
      simpa using ih

/-! ## C8 -/

/-- C8: for every record sequence, period and date field, the period
filter's output is a subsequence of its input: kept records appear in their
original relative order, without duplication or reordering. -/
theorem c8_filterByPeriod_sublist
    (jsdate : String → Option Int) (now : Int) (data : List Row)
    (period dateColumn : String) :
    List.Sublist (filterByPeriod jsdate now data period dateColumn) data := by
  unfold filterByPeriod
  exact List.filter_sublist data

/-! ## C9 -/

/-- C9: a customer-lookup request in which both the mobile and the unit
parameter are missing or empty is answered with status 400 and the error
body, as an early rejection that performs no spreadsheet load. -/
theorem c9_customer_reject (mobile unit : Option String)
    (hm : mobile = none ∨ mobile = some "")
    (hu : unit = none ∨ unit = some "") :
    customerRoute mobile unit = RouteOutcome.earlyReject 400 "Provide mobile or unit query" := by
  have h1 : jsFalsyB mobile = true := by rcases hm with h | h <;> simp [h, jsFalsyB]
  have h2 : jsFalsyB unit = true := by rcases hu with h | h <;> simp [h, jsFalsyB]
  unfold customerRoute
  rw [h1, h2]
  simp

/-- Witness for C9 at the concrete request with neither parameter. -/
theorem c9_customer_reject_witness :
    customerRoute none none = RouteOutcome.earlyReject 400 "Provide mobile or unit query" :=
  c9_customer_reject none none (Or.inl rfl) (Or.inl rfl)

/-! ## C1 -/

/-- C1 (amended): in every bookings summary, `unsold ≤ sold` (because the
uppercased status of every row counted as UNSOLD also contains `"SOLD"` as a
substring) and `sold ≤ total_bookings`; consequently
`sold + unsold ≤ 2 * total_bookings`.  The originally claimed
`sold + unsold ≤ total_bookings` fails whenever a filtered row's status
contains `"UNSOLD"`, since such a row is counted in both tallies. -/
theorem c1_bookingsSummary_bounds
    (jsdate : String → Option Int) (now : Int) (data : List Row) (period : String) :
    (bookingsSummary jsdate now data period).unsold
        ≤ (bookingsSummary jsdate now data period).sold ∧
    (bookingsSummary jsdate now data period).sold
        ≤ (bookingsSummary jsdate now data period).total_bookings := by
  unfold bookingsSummary
  constructor
  · exact filter_length_mono _ _ _
      (fun r h => containsSub_SOLD_of_UNSOLD _ h)
  · exact List.length_filter_le _ _

/-- C1 (counterexample to the claim as stated): a single filtered row whose
status is `"UNSOLD"` is counted in both `sold` and `unsold`, so
`sold + unsold = 2 > 1 = total_bookings`. -/
theorem c1_counterexample :
    ¬ ((bookingsSummary jsNone 0
          [[("Booking Date", "2024-03-05"), ("SOLD/UNSOLD", "UNSOLD")]] "all").sold
        + (bookingsSummary jsNone 0
          [[("Booking Date", "2024-03-05"), ("SOLD/UNSOLD", "UNSOLD")]] "all").unsold
        ≤ (bookingsSummary jsNone 0
          [[("Booking Date", "2024-03-05"), ("SOLD/UNSOLD", "UNSOLD")]] "all").total_bookings) := by
  decide

/-! ## C7 -/

/-- The empty string contains only the empty pattern. -/
theorem containsSub_empty_left (pat : String) :
    containsSub "" pat = true → pat = "" := by
  cases pat with
  | mk l =>
    cases l with
    | nil => intro _; rfl
    | cons c cs => intro h; simp [containsSub, startsWithL, String.toList] at h

/-- The normalization of the empty header is empty. -/
theorem normHdr_empty : normHdr "" = "" := by decide

/-- C7: fuzzy header resolution for a label that does not normalize to the
empty string: the first header whose case-insensitive whitespace-collapsed
normalization equals the normalized label is returned; otherwise the first
header whose normalization contains the normalized label as a substring;
otherwise the statically configured default header name. -/
theorem c7_findKey_resolution (keys : List String) (label dflt : String)
    (hlab : normHdr label ≠ "") :
    (∀ k, keys.find? (fun k => normHdr k == normHdr label) = some k →
        resolveKey keys label dflt = k) ∧
    (keys.find? (fun k => normHdr k == normHdr label) = none →
      ∀ k, keys.find? (fun k => containsSub (normHdr k) (normHdr label)) = some k →
        resolveKey keys label dflt = k) ∧
    (keys.find? (fun k => normHdr k == normHdr label) = none →
      keys.find? (fun k => containsSub (normHdr k) (normHdr label)) = none →
        resolveKey keys label dflt = dflt) := by
  refine ⟨?_, ?_, ?_⟩
  · intro k hk
    have hpk := List.find?_some hk
    simp only [beq_iff_eq] at hpk
    have hne : k ≠ "" := by
      intro he
      subst he
      rw [normHdr_empty] at hpk
      exact hlab hpk.symm
    unfold resolveKey findKey
    rw [hk]
    simp [hne]
  · intro hnone k hk
    have hpk := List.find?_some hk
    have hne : k ≠ "" := by
      intro he
      subst he
      exact hlab (containsSub_empty_left _ (by simpa [normHdr_empty] using hpk))
    unfold resolveKey findKey
    rw [hnone, hk]
    simp [hne]
  · intro hnone1 hnone2
    unfold resolveKey findKey
    rw [hnone1, hnone2]

/-- Witness for C7: a header differing from the label only in whitespace is
resolved by the exact normalized match. -/
theorem c7_findKey_resolution_witness :
    resolveKey ["Sale  Price"] "Sale Price" "Sale Price" = "Sale  Price" :=
  (c7_findKey_resolution ["Sale  Price"] "Sale Price" "Sale Price" (by decide)).1
    "Sale  Price" (by decide)

/-! ## C4 -/

/-- C4: the number parser returns the JS numeric value of the input after
deleting every character that is not a digit, a period or a minus sign; an
empty or missing input yields 0, a cleaned string that fails numeric
conversion yields 0 (never an error, the function is total by
construction); in particular the spec's examples hold. -/
theorem c4_parseNumber_spec :
    (∀ s : String, s ≠ "" →
        parseNumber (some s) = (jsNumber (cleanNumeric s)).getD ⟨0, 0⟩) ∧
    parseNumber none = ⟨0, 0⟩ ∧
    parseNumber (some "") = ⟨0, 0⟩ ∧
    (∀ s : String, jsNumber (cleanNumeric s) = none → parseNumber (some s) = ⟨0, 0⟩) ∧
    (parseNumber (some "1,23,456.78")).toRat = 123456.78 ∧
    (parseNumber (some "₹ 50,000")).toRat = 50000 ∧
    (parseNumber (some "abc")).toRat = 0 := by
  refine ⟨?_, rfl, rfl, ?_, ?_, ?_, ?_⟩
  · intro s hs
    simp only [parseNumber]
    rw [if_neg hs]
  · intro s hn
    by_cases hs : s = ""
    · subst hs; rfl
    · simp only [parseNumber]
      rw [if_neg hs, hn]
      rfl
  · have h : parseNumber (some "1,23,456.78") = ⟨12345678, -2⟩ := by decide
    rw [h]
    unfold JsNum.toRat
    norm_num
  · have h : parseNumber (some "₹ 50,000") = ⟨50000, 0⟩ := by decide
    rw [h]
    unfold JsNum.toRat
    norm_num
  · have h : parseNumber (some "abc") = ⟨0, 0⟩ := by decide
    rw [h]
    unfold JsNum.toRat
    norm_num

/-- Witness for C4 at concrete inputs discharging the hypotheses. -/
theorem c4_parseNumber_spec_witness :
    parseNumber (some "₹ 50,000") = (jsNumber (cleanNumeric "₹ 50,000")).getD ⟨0, 0⟩ ∧
    parseNumber (some "5-") = ⟨0, 0⟩ :=
  ⟨c4_parseNumber_spec.1 "₹ 50,000" (by decide),
   c4_parseNumber_spec.2.2.2.1 "5-" (by decide)⟩

/-! ## C3 -/

/-- C3: the period filter keeps exactly the records whose parsed date lies
in the named window — today: start-of-today ≤ d < start-of-today plus one
day; this_week: now − 7 days ≤ d ≤ now, inclusive at both ends; this_month:
first-of-month ≤ d < first-of-next-month; any other period keeps every
record with a parseable date — and every record whose date field does not
parse is excluded regardless of the period. -/
theorem c3_filterByPeriod_spec (jsdate : String → Option Int) (now : Int)
    (data : List Row) (period dateColumn : String) :
    filterByPeriod jsdate now data period dateColumn =
      data.filter (fun row =>
        match parseDate jsdate (getField row dateColumn) with
        | none => false
        | some d => specWindowB now period d) := by
  unfold filterByPeriod
  apply List.filter_congr
  intro row _
  cases hd : parseDate jsdate (getField row dateColumn) with
  | none => rfl
  | some d =>
    unfold specWindowB specStartOfToday specStartOfMonth specStartOfNextMonth
    by_cases h1 : period = "today"
    · simp [h1, jsMakeDate_succ_day]
    · by_cases h2 : period = "this_week"
      · simp [h1, h2, jsSetDate_getDate_sub]
      · by_cases h3 : period = "this_month"
        · simp [h1, h2, h3]
        · simp [h1, h2, h3]

/-! ## C5 -/

/-- Reduction of `parseDate` to its manual fallback when the direct host
parse fails and the split has at least three components. -/
theorem parseDate_fallback (jsdate : String → Option Int) (s : String)
    (a b c : String) (rest : List String)
    (hdir : jsdate (jsTrimStr s) = none)
    (hsplit : jsSplitSep (jsTrimStr s) = a :: b :: c :: rest) :
    parseDate jsdate (some s) =
      finishYMD (chooseYMD (jsTrimStr a) (jsTrimStr b) (jsTrimStr c)).1
        (chooseYMD (jsTrimStr a) (jsTrimStr b) (jsTrimStr c)).2.1
        (chooseYMD (jsTrimStr a) (jsTrimStr b) (jsTrimStr c)).2.2 := by
  have hs : s ≠ "" := by
    intro he
    subst he
    rw [show jsSplitSep (jsTrimStr "") = [""] from rfl] at hsplit
    simp at hsplit
  have ht : jsTrimStr s ≠ "" := by
    intro he
    rw [he, show jsSplitSep "" = [""] from rfl] at hsplit
    simp at hsplit
  simp only [parseDate]
  rw [if_neg hs, if_neg ht]
  simp only [hdir, hsplit]

/-- The tail `finishYMD` is null as soon as one component is missing or zero. -/
theorem finishYMD_none (y mo d : Option Int)
    (h : y = none ∨ y = some 0 ∨ mo = none ∨ mo = some 0 ∨ d = none ∨ d = some 0) :
    finishYMD y mo d = none := by
  rcases y with _ | yv
  · rfl
  rcases mo with _ | mv
  · rfl
  rcases d with _ | dv
  · rfl
  simp only [Option.some.injEq, reduceCtorEq, false_or] at h
  simp only [finishYMD]
  rw [if_pos h]

/-- C5: the date parser is total by construction (it returns an optional
timestamp and never throws), and it returns null in each of the claimed
cases: missing input or input that trims to the empty string; direct parse
failure with fewer than three split components; a chosen
year/month/day component that is missing (`NaN`) or zero; and failure of the
final reconstructed ISO parse. -/
theorem c5_parseDate_total :
    (∀ jsdate : String → Option Int, parseDate jsdate none = none) ∧
    (∀ (jsdate : String → Option Int) (s : String), jsTrimStr s = "" →
        parseDate jsdate (some s) = none) ∧
    (∀ (jsdate : String → Option Int) (s : String),
        jsdate (jsTrimStr s) = none → (jsSplitSep (jsTrimStr s)).length < 3 →
        parseDate jsdate (some s) = none) ∧
    (∀ (jsdate : String → Option Int) (s a b c : String) (rest : List String),
        jsdate (jsTrimStr s) = none → jsSplitSep (jsTrimStr s) = a :: b :: c :: rest →
        ((chooseYMD (jsTrimStr a) (jsTrimStr b) (jsTrimStr c)).1 = none ∨
         (chooseYMD (jsTrimStr a) (jsTrimStr b) (jsTrimStr c)).1 = some 0 ∨
         (chooseYMD (jsTrimStr a) (jsTrimStr b) (jsTrimStr c)).2.1 = none ∨
         (chooseYMD (jsTrimStr a) (jsTrimStr b) (jsTrimStr c)).2.1 = some 0 ∨
         (chooseYMD (jsTrimStr a) (jsTrimStr b) (jsTrimStr c)).2.2 = none ∨
         (chooseYMD (jsTrimStr a) (jsTrimStr b) (jsTrimStr c)).2.2 = some 0) →
        parseDate jsdate (some s) = none) ∧
    (∀ (jsdate : String → Option Int) (s a b c : String) (rest : List String)
        (y mo d : Int),
        jsdate (jsTrimStr s) = none → jsSplitSep (jsTrimStr s) = a :: b :: c :: rest →
        chooseYMD (jsTrimStr a) (jsTrimStr b) (jsTrimStr c) = (some y, some mo, some d) →
        y ≠ 0 → mo ≠ 0 → d ≠ 0 → ecmaISOms y mo d = none →
        parseDate jsdate (some s) = none) := by
  refine ⟨fun _ => rfl, ?_, ?_, ?_, ?_⟩
  · intro jsdate s htrim
    by_cases hs : s = ""
    · subst hs; rfl
    · simp only [parseDate]
      rw [if_neg hs, if_pos htrim]
  · intro jsdate s hdir hlen
    by_cases hs : s = ""
    · subst hs; rfl
    by_cases ht : jsTrimStr s = ""
    · simp only [parseDate]
      rw [if_neg hs, if_pos ht]
    simp only [parseDate]
    rw [if_neg hs, if_neg ht]
    simp only [hdir]
    rcases hsp : jsSplitSep (jsTrimStr s) with _ | ⟨a, _ | ⟨b, _ | ⟨c, rest⟩⟩⟩
    · rfl
    · rfl
    · rfl
    · rw [hsp] at hlen
      exact absurd hlen (by simp only [List.length_cons]; omega)
  · intro jsdate s a b c rest hdir hsplit hzero
    rw [parseDate_fallback jsdate s a b c rest hdir hsplit]
    exact finishYMD_none _ _ _ hzero
  · intro jsdate s a b c rest y mo d hdir hsplit hch hy hmo hd hiso
    rw [parseDate_fallback jsdate s a b c rest hdir hsplit, hch]
    simp only [finishYMD]
    rw [if_neg (by tauto)]
    exact hiso

/-- Witness for C5: each null case exercised at a concrete input. -/
theorem c5_parseDate_total_witness :
    parseDate jsNone none = none ∧
    parseDate jsNone (some "  ") = none ∧
    parseDate jsNone (some "12/2024") = none ∧
    parseDate jsNone (some "0/5/2024") = none ∧
    parseDate jsNone (some "31/02/2024") = none :=
  ⟨c5_parseDate_total.1 jsNone,
   c5_parseDate_total.2.1 jsNone "  " (by decide),
   c5_parseDate_total.2.2.1 jsNone "12/2024" rfl (by decide),
   c5_parseDate_total.2.2.2.1 jsNone "0/5/2024" "0" "5" "2024" [] rfl (by decide) (by decide),
   c5_parseDate_total.2.2.2.2 jsNone "31/02/2024" "31" "02" "2024" [] 2024 2 31 rfl
     (by decide) (by decide) (by decide) (by decide) (by decide) (by decide)⟩

/-! ## C2 -/

/-- C2 (counterexample to the claim as stated): on `"5-6-7 2024"` — four
components, the last one a 4-digit year — the parser uses the THIRD
component `"7"` as its year candidate, so the reconstruction fails and it
returns null, while the claim's last-component reading predicts May 6, 2024
(month 5, day 6, year 2024). -/
theorem c2_counterexample : ¬ dateHeuristicClaim parseDate := by
  intro h
  have h2 := (h jsNone "5-6-7 2024" "5" "6" "7" ["2024"] rfl (by decide)).2
    (by decide) (by decide)
  revert h2
  decide

/-- C2 (amended): with the LAST component replaced by the THIRD component as
the year candidate — the code destructures only the first three split
components — the heuristics hold as claimed for the hardened parser when the
direct parse fails: (i) a first component of length 4 with numeric value
above 1900 gives year-month-day of the first three components; (ii)
otherwise a third component of length 4 with numeric value strictly between
1900 and 3000 gives a day/month reading of the first two components, day
first exactly when `parseInt` of the first exceeds 12, with the third as the
year. -/
theorem c2_dateHeuristic_amended (jsdate : String → Option Int)
    (s a b c : String) (rest : List String)
    (hdir : jsdate (jsTrimStr s) = none)
    (hsplit : jsSplitSep (jsTrimStr s) = a :: b :: c :: rest) :
    (condFirstYear (jsTrimStr a) = true →
      parseDate jsdate (some s) =
        finishYMD (parseIntJS (jsTrimStr a)) (parseIntJS (jsTrimStr b))
          (parseIntJS (jsTrimStr c))) ∧
    (condFirstYear (jsTrimStr a) = false →
      condThirdYear (jsTrimStr c) = true →
      parseDate jsdate (some s) =
        (if piGt12 (jsTrimStr a) = true then
          finishYMD (parseIntJS (jsTrimStr c)) (parseIntJS (jsTrimStr b))
            (parseIntJS (jsTrimStr a))
        else
          finishYMD (parseIntJS (jsTrimStr c)) (parseIntJS (jsTrimStr a))
            (parseIntJS (jsTrimStr b)))) := by
  have hred := parseDate_fallback jsdate s a b c rest hdir hsplit
  constructor
  · intro hc
    rw [hred]
    unfold chooseYMD
    rw [if_pos hc]
  · intro hc1 hc2
    rw [hred]
    unfold chooseYMD
    rw [if_neg (by simp [hc1]), if_pos hc2]
    by_cases hg : piGt12 (jsTrimStr a) = true
    · rw [if_pos hg, if_pos hg]
    · rw [if_neg hg, if_neg hg]

/-- Witness for C2 (amended) on `"15/08/2024"`: first component 15 exceeds
12, so it reads day 15, month 8, year 2024. -/
theorem c2_dateHeuristic_amended_witness :
    parseDate jsNone (some "15/08/2024") = ecmaISOms 2024 8 15 := by
  have h := (c2_dateHeuristic_amended jsNone "15/08/2024" "15" "08" "2024" [] rfl
    (by decide)).2 (by decide) (by decide)
  rw [h]
  decide

/-! ## Supporting lemmas about the counters pipeline (C6, C10) -/

/-- A key is looked up successfully exactly when it occurs among the keys. -/
theorem lookupCnt_isSome_iff_mem_keys (acc : List (String × Nat)) (k : String) :
    (lookupCnt k acc).isSome = true ↔ k ∈ acc.map Prod.fst := by
  induction acc with
  | nil => simp [lookupCnt]
  | cons p t ih =>
    rcases p with ⟨a, v⟩
    by_cases hk : k = a
    · subst hk
      simp [lookupCnt]
    · simp [lookupCnt, hk, ih]

/-- The in-place increment branch preserves the key sequence. -/
theorem bump_map_fst_of_some (acc : List (String × Nat)) (k : String)
    (h : (lookupCnt k acc).isSome = true) :
    (bumpCount acc k).map Prod.fst = acc.map Prod.fst := by
  unfold bumpCount
  rw [if_pos h, List.map_map]
  apply List.map_congr_left
  intro p _
  by_cases hp : p.1 = k <;> simp [hp]

/-- Bumping preserves key distinctness. -/
theorem bump_keysND (acc : List (String × Nat)) (k : String) (hnd : keysND acc) :
    keysND (bumpCount acc k) := by
  unfold keysND
  by_cases h : (lookupCnt k acc).isSome = true
  · rw [bump_map_fst_of_some acc k h]
    exact hnd
  · unfold bumpCount
    rw [if_neg h]
    have hk : k ∉ acc.map Prod.fst := by
      intro hmem
      exact h ((lookupCnt_isSome_iff_mem_keys acc k).mpr hmem)
    simp only [List.map_append, List.map_cons, List.map_nil]
    rw [List.nodup_append]
    refine ⟨hnd, List.nodup_singleton k, ?_⟩
    intro a ha hb
    simp only [List.mem_singleton] at hb
    subst hb
    exact hk ha

/-- Normalization of the bump function on an explicit pair. -/
theorem bump_head_eq (a : String) (v : Nat) (k : String) :
    (if (a, v).1 = k then ((a, v).1, (a, v).2 + 1) else (a, v)) =
      if a = k then (a, v + 1) else (a, v) := rfl

/-- Lookup through the in-place increment. -/
theorem lookupCnt_map_bump (k l : String) (acc : List (String × Nat)) :
    lookupCnt l (acc.map (fun p => if p.1 = k then (p.1, p.2 + 1) else p)) =
      (lookupCnt l acc).map (fun v => if l = k then v + 1 else v) := by
  induction acc with
  | nil => simp [lookupCnt]
  | cons p t ih =>
    rcases p with ⟨a, v⟩
    simp only [List.map_cons, bump_head_eq]
    by_cases hak : a = k
    · rw [if_pos hak]
      subst hak
      by_cases hla : l = a
      · subst hla
        simp [lookupCnt]
      · simp [lookupCnt, hla, ih]
    · rw [if_neg hak]
      by_cases hla : l = a
      · subst hla
        simp [lookupCnt, hak]
      · simp [lookupCnt, hla, hak, ih]

/-- Lookup through the append of a fresh counter. -/
theorem lookupCnt_append_single (l k : String) (acc : List (String × Nat)) :
    lookupCnt l (acc ++ [(k, 1)]) =
      match lookupCnt l acc with
      | some v => some v
      | none => if l = k then some 1 else none := by
  induction acc with
  | nil => simp [lookupCnt]
  | cons p t ih =>
    rcases p with ⟨a, v⟩
    by_cases hla : l = a
    · subst hla
      simp [lookupCnt]
    · simp [lookupCnt, hla, ih]

/-- Effect of one bump on a counter value. -/
theorem bump_lookupD (acc : List (String × Nat)) (k l : String) :
    (lookupCnt l (bumpCount acc k)).getD 0 =
      (lookupCnt l acc).getD 0 + (if l = k then 1 else 0) := by
  unfold bumpCount
  by_cases h : (lookupCnt k acc).isSome = true
  · rw [if_pos h, lookupCnt_map_bump]
    by_cases hlk : l = k
    · subst hlk
      rcases hv : lookupCnt l acc with _ | v
      · rw [hv] at h
        simp at h
      · simp
    · rcases hv : lookupCnt l acc with _ | v <;> simp [hlk]
  · rw [if_neg h, lookupCnt_append_single]
    rcases hv : lookupCnt l acc with _ | v
    · by_cases hlk : l = k <;> simp [hlk]
    · by_cases hlk : l = k
      · subst hlk
        rw [hv] at h
        simp at h
      · simp [hlk]

/-- Key distinctness of the folded counters. -/
theorem foldl_bump_keysND (key : String) (data : List Row) :
    ∀ acc : List (String × Nat), keysND acc →
      keysND (data.foldl (fun acc row => bumpCount acc (normVal row key)) acc) := by
  induction data with
  | nil => intro acc h; exact h
  | cons r t ih =>
    intro acc h
    simp only [List.foldl_cons]
    exact ih _ (bump_keysND _ _ h)

/-- The `counts` object has distinct keys. -/
theorem buildCounts_keysND (data : List Row) (key : String) :
    keysND (buildCounts data key) :=
  foldl_bump_keysND key data [] (by simp [keysND])

/-- Folding the bumps counts occurrences of each label. -/
theorem foldl_bump_lookupD (key l : String) (data : List Row) :
    ∀ acc : List (String × Nat),
      (lookupCnt l (data.foldl (fun acc row => bumpCount acc (normVal row key)) acc)).getD 0 =
        (lookupCnt l acc).getD 0 + data.countP (fun r => normVal r key == l) := by
  induction data with
  | nil => intro acc; simp
  | cons r t ih =>
    intro acc
    simp only [List.foldl_cons, List.countP_cons]
    rw [ih, bump_lookupD]
    by_cases hl : l = normVal r key
    · rw [if_pos hl, show (normVal r key == l) = true by simp [hl]]
      rw [if_pos rfl]
      omega
    · rw [if_neg hl, show (normVal r key == l) = false by
        simpa using fun he => hl he.symm]
      rw [if_neg (by simp : ¬ (false = true))]
      omega

/-- The counter of label `l` equals the number of records tallied under
`l`. -/
theorem buildCounts_lookupD (data : List Row) (key l : String) :
    (lookupCnt l (buildCounts data key)).getD 0 =
      data.countP (fun r => normVal r key == l) := by
  have h := foldl_bump_lookupD key l data []
  simpa [buildCounts, lookupCnt] using h

/-- Under distinct keys a member pair is exactly the lookup result. -/
theorem lookupCnt_eq_some_of_mem (acc : List (String × Nat)) (l : String) (c : Nat)
    (hnd : keysND acc) (hm : (l, c) ∈ acc) : lookupCnt l acc = some c := by
  induction acc with
  | nil => cases hm
  | cons p t ih =>
    rcases p with ⟨a, v⟩
    have hnd2 : keysND t := by
      unfold keysND at hnd ⊢
      simpa using (List.nodup_cons.mp hnd).2
    have ha : a ∉ t.map Prod.fst := by
      unfold keysND at hnd
      simpa using (List.nodup_cons.mp hnd).1
    rcases List.mem_cons.mp hm with he | hm2
    · rcases Prod.mk.injEq .. ▸ he with ⟨h1, h2⟩
      subst h1
      subst h2
      simp [lookupCnt]
    · have hla : l ≠ a := by
        intro he
        subst he
        exact ha (List.mem_map_of_mem Prod.fst hm2)
      simp [lookupCnt, hla, ih hnd2 hm2]

/-- Lookup results are members. -/
theorem mem_of_lookupCnt_eq_some (acc : List (String × Nat)) (l : String) (c : Nat)
    (h : lookupCnt l acc = some c) : (l, c) ∈ acc := by
  induction acc with
  | nil => simp [lookupCnt] at h
  | cons p t ih =>
    rcases p with ⟨a, v⟩
    by_cases hla : l = a
    · subst hla
      simp [lookupCnt] at h
      subst h
      exact List.mem_cons_self _ _
    · simp [lookupCnt, hla] at h
      exact List.mem_cons.mpr (Or.inr (ih h))

/-- Inserting ascending is a permutation of consing. -/
theorem insertAsc_perm (x : String × Nat) (l : List (String × Nat)) :
    List.Perm (insertAsc x l) (x :: l) := by
  induction l with
  | nil => exact List.Perm.refl _
  | cons y ys ih =>
    unfold insertAsc
    by_cases hc : idxVal x < idxVal y
    · rw [if_pos hc]
    · rw [if_neg hc]
      exact (ih.cons y).trans (List.Perm.swap x y ys)

/-- The ascending sort is a permutation. -/
theorem sortAscIdx_perm (l : List (String × Nat)) :
    List.Perm (sortAscIdx l) l := by
  induction l with
  | nil => exact List.Perm.refl _
  | cons x t ih =>
    simp only [sortAscIdx, List.foldr_cons]
    exact (insertAsc_perm x _).trans (ih.cons x)

/-- Inserting descending is a permutation of consing. -/
theorem insertDesc_perm (x : String × Nat) (l : List (String × Nat)) :
    List.Perm (insertDesc x l) (x :: l) := by
  induction l with
  | nil => exact List.Perm.refl _
  | cons y ys ih =>
    unfold insertDesc
    by_cases hc : y.2 ≤ x.2
    · rw [if_pos hc]
    · rw [if_neg hc]
      exact (ih.cons y).trans (List.Perm.swap x y ys)

/-- The descending sort is a permutation. -/
theorem sortDescCount_perm (l : List (String × Nat)) :
    List.Perm (sortDescCount l) l := by
  induction l with
  | nil => exact List.Perm.refl _
  | cons x t ih =>
    simp only [sortDescCount, List.foldr_cons]
    exact (insertDesc_perm x _).trans (ih.cons x)

/-- The object-entry enumeration is a permutation of the counter list. -/
theorem jsObjectEntries_perm (l : List (String × Nat)) :
    List.Perm (jsObjectEntries l) l := by
  unfold jsObjectEntries
  exact ((sortAscIdx_perm _).append_right _).trans (l.filter_append_perm _)

/-- The group counter output is a permutation of the raw counters. -/
theorem groupCount_perm (data : List Row) (key : String) :
    List.Perm (groupCount data key) (buildCounts data key) := by
  unfold groupCount
  exact (sortDescCount_perm _).trans (jsObjectEntries_perm _)

/-- Descending insertion preserves descending sortedness. -/
theorem insertDesc_sorted (x : String × Nat) (l : List (String × Nat))
    (h : List.Pairwise (fun p q : String × Nat => q.2 ≤ p.2) l) :
    List.Pairwise (fun p q : String × Nat => q.2 ≤ p.2) (insertDesc x l) := by
  induction l with
  | nil => simp [insertDesc]
  | cons y ys ih =>
    rcases List.pairwise_cons.mp h with ⟨hy, hys⟩
    unfold insertDesc
    by_cases hc : y.2 ≤ x.2
    · rw [if_pos hc]
      refine List.pairwise_cons.mpr ⟨?_, h⟩
      intro z hz
      rcases List.mem_cons.mp hz with rfl | hz2
      · exact hc
      · exact le_trans (hy z hz2) hc
    · rw [if_neg hc]
      refine List.pairwise_cons.mpr ⟨?_, ih hys⟩
      intro z hz
      rcases List.mem_cons.mp ((insertDesc_perm x ys).mem_iff.mp hz) with rfl | hz2
      · omega
      · exact hy z hz2

/-- The descending sort is sorted by weakly decreasing counts. -/
theorem sortDescCount_sorted (l : List (String × Nat)) :
    List.Pairwise (fun p q : String × Nat => q.2 ≤ p.2) (sortDescCount l) := by
  induction l with
  | nil => simp [sortDescCount]
  | cons x t ih =>
    simp only [sortDescCount, List.foldr_cons]
    exact insertDesc_sorted x _ ih

/-- Bumping keeps every counter at least one. -/
theorem bump_pos (acc : List (String × Nat)) (k : String)
    (h : ∀ p ∈ acc, 1 ≤ p.2) : ∀ p ∈ bumpCount acc k, 1 ≤ p.2 := by
  unfold bumpCount
  by_cases hs : (lookupCnt k acc).isSome = true
  · rw [if_pos hs]
    intro p hp
    rcases List.mem_map.mp hp with ⟨q, hq, rfl⟩
    have hq2 := h q hq
    by_cases h1 : q.1 = k
    · rw [if_pos h1]
      show 1 ≤ q.2 + 1
      omega
    · rw [if_neg h1]
      exact hq2
  · rw [if_neg hs]
    intro p hp
    rcases List.mem_append.mp hp with h1 | h1
    · exact h p h1
    · simp only [List.mem_singleton] at h1
      subst h1
      exact le_refl 1

/-- Every folded counter is at least one. -/
theorem foldl_bump_pos (key : String) (data : List Row) :
    ∀ acc : List (String × Nat), (∀ p ∈ acc, 1 ≤ p.2) →
      ∀ p ∈ data.foldl (fun acc row => bumpCount acc (normVal row key)) acc, 1 ≤ p.2 := by
  induction data with
  | nil => intro acc h; exact h
  | cons r t ih =>
    intro acc h
    simp only [List.foldl_cons]
    exact ih _ (bump_pos _ _ h)

/-- The bump map is the identity when the key is absent. -/
theorem map_bump_id (acc : List (String × Nat)) (k : String)
    (hk : k ∉ acc.map Prod.fst) :
    acc.map (fun p => if p.1 = k then (p.1, p.2 + 1) else p) = acc := by
  induction acc with
  | nil => rfl
  | cons p t ih =>
    rcases p with ⟨a, v⟩
    simp only [List.map_cons, List.mem_cons, not_or] at hk
    simp only [List.map_cons]
    rw [bump_head_eq, if_neg (Ne.symm hk.1), ih hk.2]

/-- The in-place increment adds exactly one to the total count when the key
is present and the keys are distinct. -/
theorem map_bump_sum_of_some (acc : List (String × Nat)) (k : String)
    (hnd : keysND acc) (hs : (lookupCnt k acc).isSome = true) :
    ((acc.map (fun p => if p.1 = k then (p.1, p.2 + 1) else p)).map Prod.snd).sum
      = ((acc.map Prod.snd).sum) + 1 := by
  induction acc with
  | nil => simp [lookupCnt] at hs
  | cons p t ih =>
    rcases p with ⟨a, v⟩
    have hnd2 : keysND t := by
      unfold keysND at hnd ⊢
      simpa using (List.nodup_cons.mp hnd).2
    have ha : a ∉ t.map Prod.fst := by
      unfold keysND at hnd
      simpa using (List.nodup_cons.mp hnd).1
    simp only [List.map_cons, bump_head_eq]
    by_cases hak : a = k
    · rw [if_pos hak]
      subst hak
      rw [map_bump_id t a ha]
      simp only [List.map_cons, List.sum_cons]
      omega
    · rw [if_neg hak]
      have hka : ¬ k = a := fun he => hak he.symm
      have hs2 : (lookupCnt k t).isSome = true := by
        simpa [lookupCnt, hka] using hs
      simp only [List.map_cons, List.sum_cons]
      rw [ih hnd2 hs2]
      omega

/-- One bump adds exactly one to the total count. -/
theorem bump_sum (acc : List (String × Nat)) (k : String) (hnd : keysND acc) :
    ((bumpCount acc k).map Prod.snd).sum = ((acc.map Prod.snd).sum) + 1 := by
  unfold bumpCount
  by_cases hs : (lookupCnt k acc).isSome = true
  · rw [if_pos hs]
    exact map_bump_sum_of_some acc k hnd hs
  · rw [if_neg hs]
    simp

/-- Folding the bumps adds the number of records to the total count. -/
theorem foldl_bump_sum (key : String) (data : List Row) :
    ∀ acc : List (String × Nat), keysND acc →
      ((data.foldl (fun acc row => bumpCount acc (normVal row key)) acc).map Prod.snd).sum
        = ((acc.map Prod.snd).sum) + data.length := by
  induction data with
  | nil => intro acc _; simp
  | cons r t ih =>
    intro acc h
    simp only [List.foldl_cons, List.length_cons]
    rw [ih _ (bump_keysND _ _ h), bump_sum _ _ h]
    omega

/-- The total of the raw counters is the number of records. -/
theorem buildCounts_sum (data : List Row) (key : String) :
    ((buildCounts data key).map Prod.snd).sum = data.length := by
  have h := foldl_bump_sum key data [] (by simp [keysND])
  simpa [buildCounts] using h

/-! ## C6 -/

/-- C6: for every record set and field name, the group counter emits
(label, count) pairs sorted by count descending, each count being the number
of records whose trimmed field value (blank or missing normalized to
`"Unknown"`) equals the label, and every record's label appears; the spec's
four-record example produces exactly
`[("A", 2), ("B", 1), ("Unknown", 1)]`. -/
theorem c6_groupCount_spec :
    (∀ (data : List Row) (key : String),
        List.Pairwise (fun p q : String × Nat => q.2 ≤ p.2) (groupCount data key)) ∧
    (∀ (data : List Row) (key l : String) (c : Nat), (l, c) ∈ groupCount data key →
        c = data.countP (fun r => normVal r key == l)) ∧
    (∀ (data : List Row) (key : String), ∀ r ∈ data,
        ∃ c, (normVal r key, c) ∈ groupCount data key) ∧
    groupCount [[("K", "A")], [("K", "A")], [("K", "B")], [("K", "")]] "K"
      = [("A", 2), ("B", 1), ("Unknown", 1)] := by
  refine ⟨?_, ?_, ?_, by decide⟩
  · intro data key
    unfold groupCount
    exact sortDescCount_sorted _
  · intro data key l c hm
    have hmb : (l, c) ∈ buildCounts data key := (groupCount_perm data key).mem_iff.mp hm
    have hlk : lookupCnt l (buildCounts data key) = some c :=
      lookupCnt_eq_some_of_mem _ _ _ (buildCounts_keysND data key) hmb
    have hD := buildCounts_lookupD data key l
    rw [hlk] at hD
    simpa using hD
  · intro data key r hr
    have hpos : 0 < data.countP (fun q => normVal q key == normVal r key) := by
      rw [List.countP_pos_iff]
      exact ⟨r, hr, by simp⟩
    have hD := buildCounts_lookupD data key (normVal r key)
    rcases hv : lookupCnt (normVal r key) (buildCounts data key) with _ | c
    · rw [hv] at hD
      simp at hD
      omega
    · exact ⟨c, (groupCount_perm data key).mem_iff.mpr (mem_of_lookupCnt_eq_some _ _ _ hv)⟩

/-- Witness for C6 at the spec's example record set: the first conjuncts are
applied at the concrete data with their membership hypotheses discharged. -/
theorem c6_groupCount_spec_witness :
    (2 : Nat) = List.countP
      (fun r => normVal r "K" == "A")
      [[("K", "A")], [("K", "A")], [("K", "B")], [("K", "")]] ∧
    ∃ c, ("Unknown", c) ∈ groupCount [[("K", "A")], [("K", "A")], [("K", "B")], [("K", "")]] "K" :=
  ⟨c6_groupCount_spec.2.1 [[("K", "A")], [("K", "A")], [("K", "B")], [("K", "")]] "K" "A" 2
      (by decide),
   by
    have h := c6_groupCount_spec.2.2.1 [[("K", "A")], [("K", "A")], [("K", "B")], [("K", "")]]
      "K" [("K", "")] (by decide)
    simpa using h⟩

/-! ## C10 -/

/-- C10: every (label, count) pair emitted by the group counter has a count
of at least one, and the counts sum to the number of input records — every
record is tallied in exactly one group. -/
theorem c10_groupCount_invariant (data : List Row) (key : String) :
    (∀ p ∈ groupCount data key, 1 ≤ p.2) ∧
    ((groupCount data key).map Prod.snd).sum = data.length := by
  constructor
  · intro p hp
    exact foldl_bump_pos key data [] (by simp) p
      ((groupCount_perm data key).mem_iff.mp hp)
  · have hperm := (groupCount_perm data key).map Prod.snd
    rw [hperm.sum_eq, buildCounts_sum]

/-- Witness for C10 at the example record set. -/
theorem c10_groupCount_invariant_witness :
    1 ≤ (("A", 2) : String × Nat).2 ∧
    ((groupCount [[("K", "A")], [("K", "A")], [("K", "B")], [("K", "")]] "K").map
        Prod.snd).sum = 4 :=
  ⟨(c10_groupCount_invariant [[("K", "A")], [("K", "A")], [("K", "B")], [("K", "")]] "K").1
      ("A", 2) (by decide),
   (c10_groupCount_invariant [[("K", "A")], [("K", "A")], [("K", "B")], [("K", "")]] "K").2⟩

